import Mathlib

/-!
Verification development for the better-ffmpeg-progress package.

The Python modules under verification:

* `better_ffmpeg_progress/utils.py` — `parse_ffmpeg_progress_line`, the
  standalone progress-line parser.
* `better_ffmpeg_progress/better_ffmpeg_progress.py` — the `Metrics`
  dataclass, `FfmpegProcess._update_metrics` (the metrics aggregator),
  the poll loop of `FfmpegProcess._start_process` (the supervisor),
  and `FfmpegProcess._handle_process_ended`.
* `better_ffmpeg_progress/terminate_process.py` — the termination
  controller (`_terminate_children_processes`, `terminate_ffmpeg_process`).

Lines of text are modelled as `List Char` (the streams are ASCII).
Python floats are modelled as rationals (`ℚ`); sizes as integers (`ℤ`).
Exceptions that can escape a Python function are modelled with `Except`.
-/

namespace BFP

/-- A Python exception escaping a modelled function.  `valueError` stands for
`ValueError` (raised by `int()`, `float()` and by tuple-unpacking a `split`
result of the wrong length). -/
inductive PyError where
  | valueError
  deriving DecidableEq, Repr

/-- A line of process output, as a list of characters. -/
abbrev Line := List Char

/-- Convert a string literal to the `Line` representation. -/
def strL (s : String) : Line := s.toList

/-- ASCII whitespace, as recognised by Python's `int()` when stripping the
argument (the payloads under study are ASCII). -/
def isPyWS (c : Char) : Bool :=
  c = ' ' || c = '\t' || c = '\n' || c = '\r' || c = '\x0b' || c = '\x0c'

/-- Strip leading and trailing whitespace, as Python's `int()` does to its
string argument. -/
def stripWS (cs : Line) : Line :=
  ((cs.dropWhile isPyWS).reverse.dropWhile isPyWS).reverse

/-- Numeric value of an ASCII digit. -/
def digitVal (c : Char) : ℕ := c.toNat - 48

/-- Tail of a run of decimal digits possibly separated by single underscores,
with the accumulated value so far: Python's integer-literal grammar
`digit (["_"] digit)*` after the first digit.  Returns `none` on a trailing
underscore, a doubled underscore, or any non-digit character. -/
def digitsUAux (acc : ℕ) : Line → Option ℕ
  | [] => some acc
  | '_' :: c :: rest =>
      if c.isDigit then digitsUAux (acc * 10 + digitVal c) rest else none
  | ['_'] => none
  | c :: rest =>
      if c.isDigit then digitsUAux (acc * 10 + digitVal c) rest else none

/-- A nonempty run of decimal digits possibly separated by single
underscores, as accepted by Python's `int()` after sign removal. -/
def parseDigitsU : Line → Option ℕ
  | [] => none
  | c :: rest => if c.isDigit then digitsUAux (digitVal c) rest else none

/-- Model of Python's `int(s)` on an ASCII string/bytes payload: optional
surrounding whitespace, optional sign, then decimal digits with optional
single underscores between digits.  `none` models `ValueError`. -/
def pythonInt (s : Line) : Option ℤ :=
  match stripWS s with
  | '+' :: rest => (parseDigitsU rest).map (fun n => (n : ℤ))
  | '-' :: rest => (parseDigitsU rest).map (fun n => -(n : ℤ))
  | t => (parseDigitsU t).map (fun n => (n : ℤ))

/-- Value of a digit run as a natural number (no underscores). -/
def digitsVal (cs : Line) : ℕ := cs.foldl (fun acc c => acc * 10 + digitVal c) 0

/-- Model of Python's `float(s)` restricted to the forms the FFmpeg wire
protocol produces: optional surrounding whitespace, optional sign, then
`digits`, `digits.digits`, `digits.` or `.digits`.  Exponents, underscores,
`inf` and `nan` are not modelled (they never occur in `speed=` payloads).
`none` models `ValueError`. -/
def pythonFloat (s : Line) : Option ℚ :=
  let t := stripWS s
  let core := fun (u : Line) =>
    let ip := u.takeWhile Char.isDigit
    let rest := u.dropWhile Char.isDigit
    match rest with
    | [] => if ip = [] then none else some ((digitsVal ip : ℚ))
    | '.' :: rest2 =>
        let fp := rest2.takeWhile Char.isDigit
        let rest3 := rest2.dropWhile Char.isDigit
        if rest3 = [] then
          if ip = [] ∧ fp = [] then none
          else some ((digitsVal ip : ℚ) + (digitsVal fp : ℚ) / (10 : ℚ) ^ fp.length)
        else none
    | _ => none
  match t with
  | '+' :: rest => core rest
  | '-' :: rest => (core rest).map (fun q => -q)
  | u => core u

/-- Model of Python's `str.rstrip("x")`: drop every trailing `x`. -/
def rstripX (cs : Line) : Line :=
  (cs.reverse.dropWhile (fun c => c = 'x')).reverse

/-- Model of Python's `needle in hay` substring test on strings. -/
def containsSub (needle : Line) : Line → Bool
  | [] => needle.isEmpty
  | c :: rest => needle.isPrefixOf (c :: rest) || containsSub needle rest

/-- Model of Python's `str.lower()` on ASCII text. -/
def lowerL (cs : Line) : Line := cs.map Char.toLower

/-- Model of Python's `str.split(sep)` for a one-character separator:
splits on every occurrence, keeping empty pieces (`"".split("=") == [""]`,
`"a=b=c".split("=") == ["a","b","c"]`). -/
def pySplit (sep : Char) : Line → List Line
  | [] => [[]]
  | c :: rest =>
      let r := pySplit sep rest
      if c = sep then [] :: r
      else
        match r with
        | h :: t => (c :: h) :: t
        | [] => [[c]]

/-- The fixed elapsed-time prefix `_OUT_TIME_US_PREFIX = b"out_time_us="` of
`utils.py`. -/
def outTimeUsPrefix : Line := strL "out_time_us="

/-- The fixed micro-to-second divisor `_MULTIPLIER = 1e-6` of `utils.py`,
as a rational. -/
def multiplier : ℚ := 1 / 1000000

/-- Model of `utils.parse_ffmpeg_progress_line(line, total_duration_secs)`:
if the line starts with `out_time_us=`, take the remainder; an empty
remainder gives `None`; otherwise `int()` it (a `ValueError` is caught and
gives `None`), convert to seconds by `* 1e-6`, and clamp with
`min(·, total_duration_secs)` when the total duration is known.  Any other
line gives `None`. -/
def parse_ffmpeg_progress_line (line : Line) (total_duration_secs : Option ℚ) :
    Option ℚ :=
  if outTimeUsPrefix.isPrefixOf line then
    let value_str := line.drop outTimeUsPrefix.length
    if value_str = [] then none
    else
      match pythonInt value_str with
      | none => none
      | some n =>
          let current_time_secs := (n : ℚ) * multiplier
          match total_duration_secs with
          | some d => some (min current_time_secs d)
          | none => some current_time_secs
  else none

/-- Model of the `Metrics` dataclass of `better_ffmpeg_progress.py`
(`percentage: float = 0.0`, `seconds_processed: float = 0`,
`speed: float = None`, `eta: Optional[float] = None`,
`estimated_size: Optional[int] = None`). -/
structure Metrics where
  percentage : ℚ := 0
  seconds_processed : ℚ := 0
  speed : Option ℚ := none
  eta : Option ℚ := none
  estimated_size : Option ℤ := none
  deriving Repr, DecidableEq

/-- Aggregator state of an `FfmpegProcess` instance: the `Metrics` plus the
running `_current_size` counter (`int = 0` initially).  The immutable
`_duration_secs` is passed separately. -/
structure AggState where
  metrics : Metrics := {}
  current_size : ℤ := 0
  deriving Repr, DecidableEq

/-- The aggregator state of a freshly constructed `FfmpegProcess`. -/
def initAggState : AggState := {}

/-- Python truthiness of `self._duration_secs` (`None` and `0.0` are falsy). -/
def durTruthy (dur : Option ℚ) : Bool :=
  match dur with
  | none => false
  | some d => d ≠ 0

/-- Python's `int()` applied to a float value: truncation toward zero. -/
def pyIntOfRat (q : ℚ) : ℤ := if 0 ≤ q then ⌊q⌋ else ⌈q⌉

/-- The `if/elif` metric chain of `FfmpegProcess._update_metrics`:
`total_size` runs `int(value)`; `out_time_ms` runs `int(value)`, divides by
`1_000_000` and, when the duration is truthy, recomputes the percentage and
(when `_current_size` is truthy and percentage positive) the estimated size;
`speed` runs `float(value.rstrip("x"))` and, when positive, stores the speed
and (when the duration is truthy) the ETA.  An uncaught `ValueError` from
`int()`/`float()` is the `Except.error` case. -/
def applyMetricUpdate (dur : Option ℚ) (st : AggState) (metric value : Line) :
    Except PyError AggState :=
  if metric = strL "total_size" then
    match pythonInt value with
    | none => Except.error PyError.valueError
    | some n => Except.ok { st with current_size := n }
  else if metric = strL "out_time_ms" then
    match pythonInt value with
    | none => Except.error PyError.valueError
    | some n =>
        let secs := (n : ℚ) / 1000000
        let m1 := { st.metrics with seconds_processed := secs }
        if durTruthy dur then
          match dur with
          | some d =>
              let pct := secs / d * 100
              let m2 := { m1 with percentage := pct }
              if st.current_size ≠ 0 ∧ pct > 0 then
                let est := pyIntOfRat ((st.current_size : ℚ) * (100 / pct))
                let m3 := { m2 with estimated_size := some est }
                Except.ok { st with metrics := m3 }
              else
                Except.ok { st with metrics := m2 }
          | none => Except.ok { st with metrics := m1 }
        else
          Except.ok { st with metrics := m1 }
  else if metric = strL "speed" then
    match pythonFloat (rstripX value) with
    | none => Except.error PyError.valueError
    | some speed_float =>
        if speed_float > 0 then
          let m1 := { st.metrics with speed := some speed_float }
          if durTruthy dur then
            match dur with
            | some d =>
                let seconds_remaining := d - m1.seconds_processed
                let m2 := { m1 with eta := some (seconds_remaining / speed_float) }
                Except.ok { st with metrics := m2 }
            | none => Except.ok { st with metrics := m1 }
          else
            Except.ok { st with metrics := m1 }
        else
          Except.ok st
  else
    Except.ok st

/-- The forcing step at the end of `FfmpegProcess._update_metrics`: a line
equal to `progress=end` forces percentage 100 and eta 0. -/
def applyEndCheck (st : AggState) (line : Line) : AggState :=
  if line = strL "progress=end" then
    let mEnd := { st.metrics with percentage := 100, eta := some 0 }
    { st with metrics := mEnd }
  else st

/-- Model of `FfmpegProcess._update_metrics(line, metric, value, handler)`:
the `if/elif` metric chain followed by the `progress=end` check.  `dur` is
the immutable `self._duration_secs`.  When a registered `progress_handler`
exists it is invoked exactly once at the end of every (non-raising) call. -/
def update_metrics (dur : Option ℚ) (st : AggState) (line metric value : Line) :
    Except PyError AggState :=
  match applyMetricUpdate dur st metric value with
  | Except.error e => Except.error e
  | Except.ok st1 => Except.ok (applyEndCheck st1 line)

/-- `FfmpegProcess.WANTED_METRICS = frozenset({"out_time_ms", "total_size",
"speed"})`. -/
def WANTED_METRICS : List Line := [strL "out_time_ms", strL "total_size", strL "speed"]

/-- Processing of one line popped from the stdout (progress-channel) queue in
the `RUNNING` poll loop of `FfmpegProcess._start_process`:

* a falsy (empty) line is skipped;
* otherwise the line is tuple-unpacked as `metric, value = stdout.split("=")`
  — a split that does not produce exactly two parts raises `ValueError`
  (only `queue.Empty` is caught in the loop);
* the guard `metric in WANTED_METRICS and value and "N/A" not in value`
  filters lines before `_update_metrics` is called.

Returns the new aggregator state and whether `_update_metrics` ran (which is
exactly when a registered `progress_handler` is invoked). -/
def processStdoutLine (dur : Option ℚ) (st : AggState) (line : Line) :
    Except PyError (AggState × Bool) :=
  if line = [] then Except.ok (st, false)
  else
    match pySplit '=' line with
    | [metric, value] =>
        if metric ∈ WANTED_METRICS ∧ value ≠ [] ∧ containsSub (strL "N/A") value = false then
          (update_metrics dur st line metric value).map (fun st1 => (st1, true))
        else
          Except.ok (st, false)
    | _ => Except.error PyError.valueError

/-- The fixed `error_words` list of `FfmpegProcess._start_process`. -/
def error_words : List Line :=
  [strL "error", strL "failed", strL "invalid", strL "trailing", strL "unable",
   strL "unknown", strL "no such file", strL "permission denied",
   strL "not found", strL "unrecognized", strL "undefined", strL "unsupported",
   strL "does not exist", strL "missing", strL "not available", strL "cannot",
   strL "could not", strL "bad", strL "wrong", strL "forbidden"]

/-- `any(keyword in stderr.lower() for keyword in error_words)`. -/
def matchesErrorWord (line : Line) : Bool :=
  error_words.any (fun w => containsSub w (lowerL line))

/-- State carried by `_start_process` around the aggregator: the accumulated
`_error_messages`, the log-file lines, the contents of the two queues
(front of the list = next line to be popped), and the number of times a
registered `progress_handler` has been invoked. -/
structure SupState where
  agg : AggState := {}
  error_messages : List Line := []
  log : List Line := []
  stdoutQ : List Line := []
  stderrQ : List Line := []
  handler_calls : ℕ := 0
  deriving Repr, DecidableEq

/-- Processing of one line popped from the stderr (diagnostic-channel) queue,
shared verbatim by the `RUNNING` poll loop and the final drain: a falsy line
is skipped; otherwise it is written to the log file and, when it contains an
`error_words` keyword case-insensitively, appended to `_error_messages`.
This code cannot raise. -/
def processStderrLine (s : SupState) (line : Line) : SupState :=
  if line = [] then s
  else
    let s1 := { s with log := s.log ++ [line] }
    if matchesErrorWord line then
      { s1 with error_messages := s1.error_messages ++ [line] }
    else s1

/-- One tick of the `RUNNING` poll loop (`while process.poll() is None`):
when `self._duration_secs is not None`, pop at most one stdout line and
process it (the guard makes the whole stdout branch unreachable when the
duration is unknown); then pop at most one stderr line and process it.
An empty queue (`queue.Empty`) is simply skipped. -/
def pollTick (dur : Option ℚ) (hasHandler : Bool) (s : SupState) :
    Except PyError SupState :=
  let stdoutStep : Except PyError SupState :=
    if dur ≠ none then
      match s.stdoutQ with
      | [] => Except.ok s
      | line :: rest =>
          (processStdoutLine dur s.agg line).map (fun p =>
            { s with agg := p.1, stdoutQ := rest,
                     handler_calls := s.handler_calls +
                       (if hasHandler ∧ p.2 then 1 else 0) })
    else Except.ok s
  match stdoutStep with
  | Except.error e => Except.error e
  | Except.ok s1 =>
      match s1.stderrQ with
      | [] => Except.ok s1
      | line :: rest =>
          Except.ok ({ processStderrLine s1 line with stderrQ := rest })

/-- `n` ticks of the `RUNNING` poll loop. -/
def pollLoop (dur : Option ℚ) (hasHandler : Bool) : ℕ → SupState → Except PyError SupState
  | 0, s => Except.ok s
  | n + 1, s =>
      match pollTick dur hasHandler s with
      | Except.error e => Except.error e
      | Except.ok s1 => pollLoop dur hasHandler n s1

/-- Sequential per-line stderr processing of a list of popped lines. -/
def drainStderrList (s : SupState) : List Line → SupState
  | [] => s
  | line :: rest => drainStderrList (processStderrLine s line) rest

/-- The final drain after the process ends (`while True: stderr_queue.get_nowait()
... except Empty: break`): pops and processes every remaining stderr line
through the same per-line processing, until the queue raises `Empty`.  The
stdout queue is not touched by this phase. -/
def finalDrain (s : SupState) : SupState :=
  drainStderrList { s with stderrQ := [] } s.stderrQ

/-- Terminal outcome of `FfmpegProcess._handle_process_ended`:
for a nonzero return code, either the caller-supplied error handler is run
followed by `sys.exit(...)`, or the default failure report (return code,
collected error lines, log-file pointer) is printed followed by
`sys.exit(1)`; for return code 0 the success handler, if any, is run. -/
inductive EndOutcome where
  | failedCustomHandler
  | failedDefaultReport (return_code : ℤ) (error_lines : List Line) (log_file : Line)
  | succeeded (success_handler_run : Bool)
  deriving Repr, DecidableEq

/-- Model of `FfmpegProcess._handle_process_ended(return_code, error_handler,
success_handler)`.  `log_file` is `self._ffmpeg_log_file`; `errors` is
`self._error_messages`. -/
def handle_process_ended (return_code : ℤ) (errors : List Line) (log_file : Line)
    (has_error_handler has_success_handler : Bool) : EndOutcome :=
  if return_code ≠ 0 then
    if has_error_handler then EndOutcome.failedCustomHandler
    else EndOutcome.failedDefaultReport return_code errors log_file
  else
    EndOutcome.succeeded has_success_handler

/-- `_TERMINATION_TIMEOUT = 2` (seconds) of `terminate_process.py`. -/
def TERMINATION_TIMEOUT : ℕ := 2

/-- Abstract behaviour of one descendant process during the termination
sequence of `_terminate_children_processes`:

* `runningAtTerm`: result of `child.is_running()` before the graceful signal;
* `termRaises`: whether `child.terminate()` raises `psutil.Error`;
* `aliveAfterWait`: whether the child is in the `alive` list returned by
  `psutil.wait_procs(children, timeout=_TERMINATION_TIMEOUT)`;
* `runningAtKill`: result of `child_to_kill.is_running()` before the kill;
* `killRaises`: whether `child_to_kill.kill()` raises `psutil.Error`. -/
structure ChildProc where
  runningAtTerm : Bool
  termRaises : Bool
  aliveAfterWait : Bool
  runningAtKill : Bool
  killRaises : Bool
  deriving Repr, DecidableEq

/-- Outcome of enumerating the parent's descendants inside
`_terminate_children_processes` (`parent_proc.is_running()` /
`parent_proc.children(recursive=True)`): either the liveness answer with
the child list, or one of the caught-and-logged exception classes. -/
inductive EnumResult where
  | ok (parentRunning : Bool) (children : List ChildProc)
  | noSuchProcess
  | accessDenied
  | otherError
  deriving Repr, DecidableEq

/-- Signals sent by `_terminate_children_processes`: the list of children on
which `terminate()` was called and the list on which `kill()` was called. -/
structure ChildTermEvents where
  termed : List ChildProc := []
  killed : List ChildProc := []
  deriving Repr, DecidableEq

/-- Model of `_terminate_children_processes(parent_proc)`.  Every exception
during enumeration or signaling is caught inside the function, so the model
is a total function into the events it produces:

* an enumeration failure (process gone, zombie, access denied, anything
  else) is logged and ends the function — no child is signaled;
* otherwise every enumerated child that `is_running()` gets `terminate()`
  (a `psutil.Error` from the call is swallowed);
* then `wait_procs` waits up to `_TERMINATION_TIMEOUT` seconds and every
  child still alive and `is_running()` gets `kill()` (errors swallowed). -/
def terminate_children_processes (enum : EnumResult) : ChildTermEvents :=
  match enum with
  | EnumResult.noSuchProcess => {}
  | EnumResult.accessDenied => {}
  | EnumResult.otherError => {}
  | EnumResult.ok parentRunning children =>
      if parentRunning = false then {}
      else if children = [] then {}
      else
        let termed := children.filter (fun c => c.runningAtTerm)
        let alive := children.filter (fun c => c.aliveAfterWait)
        let killed := alive.filter (fun c => c.runningAtKill)
        { termed := termed, killed := killed }

/-- Terminal result of `terminate_ffmpeg_process(process)`. -/
inductive TermOutcome where
  | alreadyExited
  | terminated
  | fatalFailedToTerminate
  deriving Repr, DecidableEq

/-- Model of `terminate_ffmpeg_process(process)` at the level the claim
speaks about.  `pollBefore` is `process.poll()` on entry (`none` = still
running); the child phase runs `_terminate_children_processes`; the
platform-specific parent phase catches every `psutil` exception internally
and is abstracted away; `pollAfter` is the final `process.poll()`.  Only a
process still alive after the whole escalation sequence is fatal
(`exit("It seems like the FFmpeg process has not terminated.")`). -/
def terminate_ffmpeg_process (pollBefore : Option ℤ) (enum : EnumResult)
    (pollAfter : Option ℤ) : TermOutcome × ChildTermEvents :=
  if pollBefore ≠ none then (TermOutcome.alreadyExited, {})
  else
    let events := terminate_children_processes enum
    if pollAfter = none then (TermOutcome.fatalFailedToTerminate, events)
    else (TermOutcome.terminated, events)

/-! ## Theorems -/

/-- Helper: `pythonInt` on the empty payload fails (`int(b"")` raises). -/
theorem pythonInt_nil : pythonInt [] = none := by decide

/-- C2: the progress parser returns a value exactly for lines made of the
fixed `out_time_us=` prefix followed by a payload `int()` accepts, the value
being the payload times `1e-6`, clamped by `min` with the total duration when
that is known; the returned value never exceeds a known total duration; and
the empty payload and the `N/A` marker give `None`. -/
theorem parse_progress_line_spec :
    (∀ (line : Line) (D : Option ℚ) (v : ℚ),
        parse_ffmpeg_progress_line line D = some v ↔
          ∃ n : ℤ, outTimeUsPrefix.isPrefixOf line = true ∧
            pythonInt (line.drop outTimeUsPrefix.length) = some n ∧
            v = (match D with
                 | none => (n : ℚ) * multiplier
                 | some d => min ((n : ℚ) * multiplier) d)) ∧
    (∀ (line : Line) (d v : ℚ),
        parse_ffmpeg_progress_line line (some d) = some v → v ≤ d) ∧
    parse_ffmpeg_progress_line (strL "out_time_us=") none = none ∧
    parse_ffmpeg_progress_line (strL "out_time_us=N/A") none = none := by
  refine ⟨?_, ?_, by decide, by decide⟩
  · intro line D v
    constructor
    · intro h
      by_cases hpre : outTimeUsPrefix.isPrefixOf line
      · by_cases hval : line.drop outTimeUsPrefix.length = []
        · simp [parse_ffmpeg_progress_line, hpre, hval] at h
        · cases hint : pythonInt (line.drop outTimeUsPrefix.length) with
          | none => simp [parse_ffmpeg_progress_line, hpre, hval, hint] at h
          | some n =>
            refine ⟨n, hpre, rfl, ?_⟩
            cases D with
            | none =>
              simp [parse_ffmpeg_progress_line, hpre, hval, hint] at h
              exact h.symm
            | some d =>
              simp [parse_ffmpeg_progress_line, hpre, hval, hint] at h
              exact h.symm
      · simp [parse_ffmpeg_progress_line, hpre] at h
    · rintro ⟨n, hpre, hint, hv⟩
      have hval : line.drop outTimeUsPrefix.length ≠ [] := by
        intro hc
        rw [hc, pythonInt_nil] at hint
        exact Option.noConfusion hint
      cases D with
      | none => simp [parse_ffmpeg_progress_line, hpre, hval, hint, hv]
      | some d => simp [parse_ffmpeg_progress_line, hpre, hval, hint, hv]
  · intro line d v h
    by_cases hpre : outTimeUsPrefix.isPrefixOf line
    · by_cases hval : line.drop outTimeUsPrefix.length = []
      · simp [parse_ffmpeg_progress_line, hpre, hval] at h
      · cases hint : pythonInt (line.drop outTimeUsPrefix.length) with
        | none => simp [parse_ffmpeg_progress_line, hpre, hval, hint] at h
        | some n =>
          simp [parse_ffmpeg_progress_line, hpre, hval, hint] at h
          rw [← h]
          exact min_le_right _ _
    · simp [parse_ffmpeg_progress_line, hpre] at h

/-- Witness for C2: on `out_time_us=5000000` with a known duration of 2
seconds, the parser returns the clamped value 2, and 2 ≤ 2. -/
theorem parse_progress_line_spec_witness :
    parse_ffmpeg_progress_line (strL "out_time_us=5000000") (some 2) = some 2 ∧
    (2 : ℚ) ≤ 2 := by
  have heval : parse_ffmpeg_progress_line (strL "out_time_us=5000000") (some 2) =
      some 2 := by
    apply (parse_progress_line_spec.1 _ _ _).mpr
    refine ⟨5000000, by decide, by decide, ?_⟩
    show (2 : ℚ) = min ((5000000 : ℤ) * multiplier : ℚ) 2
    rw [multiplier]
    norm_num
  exact ⟨heval, parse_progress_line_spec.2.1 _ 2 2 heval⟩

/-- C4: for every metrics state (and any known duration), feeding the
`progress=end` marker line to the aggregator forces percentage 100 and
eta 0, and feeding it a second time leaves the metrics at
percentage 100 / eta 0 again; the END update never raises. -/
theorem end_update_forces_and_idempotent (dur : Option ℚ) (st : AggState) :
    ∃ st1 st2 : AggState,
      update_metrics dur st (strL "progress=end") (strL "progress") (strL "end") =
        Except.ok st1 ∧
      st1.metrics.percentage = 100 ∧ st1.metrics.eta = some 0 ∧
      update_metrics dur st1 (strL "progress=end") (strL "progress") (strL "end") =
        Except.ok st2 ∧
      st2.metrics.percentage = 100 ∧ st2.metrics.eta = some 0 :=
  ⟨_, _, rfl, rfl, rfl, rfl, rfl, rfl⟩

/-- C7: a SPEED update whose multiplier parses to exactly 0 leaves the whole
state (in particular etaSeconds) unchanged; a `speed=N/A` line is filtered
before reaching the aggregator, so it changes nothing and invokes no handler;
a SPEED update with multiplier s > 0 under a known (truthy) total duration d
sets eta to (d - secondsProcessed) / s; and Scenario A: with total duration
100s, elapsed 25s then speed 25x give percentage 25.0 and eta 3.0s. -/
theorem speed_update_spec :
    (∀ (dur : Option ℚ) (st : AggState) (line value : Line),
        line ≠ strL "progress=end" →
        pythonFloat (rstripX value) = some 0 →
        update_metrics dur st line (strL "speed") value = Except.ok st) ∧
    (∀ (dur : Option ℚ) (st : AggState),
        processStdoutLine dur st (strL "speed=N/A") = Except.ok (st, false)) ∧
    (∀ (d : ℚ) (st : AggState) (line value : Line) (s : ℚ),
        line ≠ strL "progress=end" →
        pythonFloat (rstripX value) = some s → 0 < s → d ≠ 0 →
        ∃ st1, update_metrics (some d) st line (strL "speed") value = Except.ok st1 ∧
          st1.metrics.eta = some ((d - st.metrics.seconds_processed) / s) ∧
          st1.metrics.speed = some s ∧
          st1.metrics.percentage = st.metrics.percentage ∧
          st1.metrics.seconds_processed = st.metrics.seconds_processed) ∧
    (∃ st1 st2 : AggState,
        processStdoutLine (some 100) initAggState (strL "out_time_ms=25000000") =
          Except.ok (st1, true) ∧
        processStdoutLine (some 100) st1 (strL "speed=25x") = Except.ok (st2, true) ∧
        st2.metrics.percentage = 25 ∧ st2.metrics.eta = some 3) := by
  refine ⟨?_, ?_, ?_, ?_⟩
  · intro dur st line value hline hv
    simp +decide [update_metrics, applyMetricUpdate, applyEndCheck, hv, hline]
  · intro dur st
    have hsplit : pySplit '=' (strL "speed=N/A") = [strL "speed", strL "N/A"] := by decide
    simp +decide [processStdoutLine, hsplit]
  · intro d st line value s hline hv hs hd
    refine
      ⟨{ st with
           metrics :=
             { st.metrics with
                 speed := some s,
                 eta := some ((d - st.metrics.seconds_processed) / s) } },
        ?_, rfl, rfl, rfl, rfl⟩
    simp +decide [update_metrics, applyMetricUpdate, applyEndCheck, hv, hs, hline,
      durTruthy, hd]
  · have hsplit1 : pySplit '=' (strL "out_time_ms=25000000") =
        [strL "out_time_ms", strL "25000000"] := by decide
    have hsplit2 : pySplit '=' (strL "speed=25x") = [strL "speed", strL "25x"] := by decide
    have hint : pythonInt (strL "25000000") = some 25000000 := by decide
    have hfl : pythonFloat (rstripX (strL "25x")) = some 25 := by
      have h0 : pythonFloat (rstripX (strL "25x")) = some ((25 : ℕ) : ℚ) := by decide
      simpa using h0
    refine ⟨{ metrics := { percentage := 25, seconds_processed := 25 }, current_size := 0 },
            { metrics := { percentage := 25, seconds_processed := 25,
                           speed := some 25, eta := some 3 }, current_size := 0 },
            ?_, ?_, rfl, rfl⟩
    · simp +decide [processStdoutLine, hsplit1, update_metrics, applyMetricUpdate,
        applyEndCheck, hint, durTruthy, initAggState, Except.map]
      norm_num
    · simp +decide [processStdoutLine, hsplit2, update_metrics, applyMetricUpdate,
        applyEndCheck, hfl, durTruthy, Except.map]
      norm_num

/-- Witness for C7: the zero-speed and positive-speed branches of
`speed_update_spec` applied at concrete inputs. -/
theorem speed_update_spec_witness :
    update_metrics (some 100) initAggState (strL "speed=0") (strL "speed") (strL "0") =
      Except.ok initAggState ∧
    (∃ st1, update_metrics (some 100) initAggState (strL "speed=25x") (strL "speed")
        (strL "25x") = Except.ok st1 ∧
      st1.metrics.eta = some ((100 - initAggState.metrics.seconds_processed) / 25) ∧
      st1.metrics.speed = some 25 ∧
      st1.metrics.percentage = initAggState.metrics.percentage ∧
      st1.metrics.seconds_processed = initAggState.metrics.seconds_processed) := by
  constructor
  · apply speed_update_spec.1 (some 100) initAggState _ _ (by decide)
    have h0 : pythonFloat (rstripX (strL "0")) = some ((0 : ℕ) : ℚ) := by decide
    simpa using h0
  · apply speed_update_spec.2.2.1 100 initAggState _ _ 25 (by decide) ?_ (by norm_num)
      (by norm_num)
    have h0 : pythonFloat (rstripX (strL "25x")) = some ((25 : ℕ) : ℚ) := by decide
    simpa using h0


/-- Truncation toward zero of a nonnegative rational lying in `[z, z+1)`. -/
theorem pyIntOfRat_eq_of_bounds (q : ℚ) (z : ℤ) (h0 : 0 ≤ q) (h1 : (z : ℚ) ≤ q)
    (h2 : q < z + 1) : pyIntOfRat q = z := by
  rw [pyIntOfRat, if_pos h0, Int.floor_eq_iff]
  exact ⟨h1, h2⟩

/-- C8 (amended): an ELAPSED update with known duration, nonzero size counter
and positive recomputed percentage stores the Python `int()` truncation of
`currentSize * (100 / percentage)` (not the exact rational); Scenario E: with
`total_size=2000000` fed first and an elapsed update giving percentage 50.0,
the estimate is exactly 4,000,000. -/
theorem estimated_size_trunc_spec :
    (∀ (d : ℚ) (st : AggState) (line value : Line) (n : ℤ),
        line ≠ strL "progress=end" →
        pythonInt value = some n → d ≠ 0 → st.current_size ≠ 0 →
        0 < (n : ℚ) / 1000000 / d * 100 →
        ∃ st1, update_metrics (some d) st line (strL "out_time_ms") value =
            Except.ok st1 ∧
          st1.metrics.estimated_size =
            some (pyIntOfRat ((st.current_size : ℚ) *
              (100 / ((n : ℚ) / 1000000 / d * 100)))) ∧
          st1.metrics.percentage = (n : ℚ) / 1000000 / d * 100) ∧
    (∃ st1 st2 : AggState,
        processStdoutLine (some 100) initAggState (strL "total_size=2000000") =
          Except.ok (st1, true) ∧
        processStdoutLine (some 100) st1 (strL "out_time_ms=50000000") =
          Except.ok (st2, true) ∧
        st2.metrics.percentage = 50 ∧
        st2.metrics.estimated_size = some 4000000) := by
  constructor
  · intro d st line value n hline hint hd hcs hpct
    refine
      ⟨{ st with
           metrics :=
             { st.metrics with
                 seconds_processed := (n : ℚ) / 1000000,
                 percentage := (n : ℚ) / 1000000 / d * 100,
                 estimated_size :=
                   some (pyIntOfRat ((st.current_size : ℚ) *
                     (100 / ((n : ℚ) / 1000000 / d * 100)))) } },
        ?_, rfl, rfl⟩
    simp +decide [update_metrics, applyMetricUpdate, applyEndCheck, hint, durTruthy,
      hd, hcs, hpct, hline]
  · have hsplit1 : pySplit '=' (strL "total_size=2000000") =
        [strL "total_size", strL "2000000"] := by decide
    have hsplit2 : pySplit '=' (strL "out_time_ms=50000000") =
        [strL "out_time_ms", strL "50000000"] := by decide
    have hint1 : pythonInt (strL "2000000") = some 2000000 := by decide
    have hint2 : pythonInt (strL "50000000") = some 50000000 := by decide
    refine ⟨{ metrics := {}, current_size := 2000000 },
            { metrics := { percentage := 50, seconds_processed := 50,
                           estimated_size := some 4000000 },
              current_size := 2000000 },
            ?_, ?_, rfl, rfl⟩
    · simp +decide [processStdoutLine, hsplit1, update_metrics, applyMetricUpdate,
        applyEndCheck, hint1, initAggState, Except.map]
    · simp +decide [processStdoutLine, hsplit2, update_metrics, applyMetricUpdate,
        applyEndCheck, hint2, durTruthy, Except.map]
      refine ⟨by norm_num, ?_⟩
      apply pyIntOfRat_eq_of_bounds <;> norm_num

/-- Counterexample for C8 as stated: with size counter 1,000,000 and an
elapsed update giving percentage 30, the stored estimate is the truncation
3,333,333, while currentSize * (100 / percentage) = 10000000/3 is not an
integer — the claimed exact equality fails. -/
theorem estimated_size_counterexample :
    ∃ st2 : AggState,
      update_metrics (some 100) { metrics := {}, current_size := 1000000 }
          (strL "out_time_ms=30000000") (strL "out_time_ms") (strL "30000000") =
        Except.ok st2 ∧
      st2.current_size = 1000000 ∧
      st2.metrics.percentage = 30 ∧
      st2.metrics.estimated_size = some 3333333 ∧
      ¬ ((3333333 : ℚ) = (1000000 : ℚ) * (100 / 30)) := by
  have hint : pythonInt (strL "30000000") = some 30000000 := by decide
  refine ⟨{ metrics := { percentage := 30, seconds_processed := 30,
                         estimated_size := some 3333333 },
            current_size := 1000000 },
          ?_, rfl, rfl, rfl, by norm_num⟩
  simp +decide [update_metrics, applyMetricUpdate, applyEndCheck, hint, durTruthy,
    Except.map]
  refine ⟨by norm_num, ?_⟩
  apply pyIntOfRat_eq_of_bounds <;> norm_num

/-- Witness for C8: the amended truncation rule applied at size 2,000,000 and
elapsed payload 50,000,000 against duration 100s. -/
theorem estimated_size_trunc_spec_witness :
    ∃ st1, update_metrics (some 100) { metrics := {}, current_size := 2000000 }
        (strL "out_time_ms=50000000") (strL "out_time_ms") (strL "50000000") =
      Except.ok st1 ∧
      st1.metrics.estimated_size =
        some (pyIntOfRat (((2000000 : ℤ) : ℚ) *
          (100 / (((50000000 : ℤ) : ℚ) / 1000000 / 100 * 100)))) ∧
      st1.metrics.percentage = ((50000000 : ℤ) : ℚ) / 1000000 / 100 * 100 := by
  apply estimated_size_trunc_spec.1 100 { metrics := {}, current_size := 2000000 }
    (strL "out_time_ms=50000000") (strL "50000000") 50000000 (by decide) (by decide)
    (by norm_num) (by norm_num) (by norm_num)


/-- The invariant of C5 over the aggregator state. -/
def MetricsInv (dur : Option ℚ) (st : AggState) : Prop :=
  0 ≤ st.metrics.percentage ∧ st.metrics.percentage ≤ 100 ∧
  0 ≤ st.metrics.seconds_processed ∧
  (∀ s, st.metrics.speed = some s → 0 < s) ∧
  (∀ e, st.metrics.eta = some e → 0 ≤ e) ∧
  (∀ d, dur = some d → st.metrics.seconds_processed ≤ d)

/-- A wire line whose elapsed-time payload is nonnegative and does not
overshoot the known total duration. -/
def goodPayload (dur : Option ℚ) (line : Line) : Prop :=
  ∀ metric value n, pySplit '=' line = [metric, value] →
    metric = strL "out_time_ms" → pythonInt value = some n →
    0 ≤ n ∧ ∀ d, dur = some d → (n : ℚ) ≤ d * 1000000

/-- Sequential processing of a list of progress-channel lines by the poll
loop. -/
def processLines (dur : Option ℚ) (st : AggState) : List Line → Except PyError AggState
  | [] => Except.ok st
  | l :: ls =>
      match processStdoutLine dur st l with
      | Except.error e => Except.error e
      | Except.ok (st1, _) => processLines dur st1 ls

/-- Helper for C5: the metric chain of `_update_metrics` preserves the metrics invariant under bounded elapsed payloads. -/
theorem applyMetricUpdate_inv (dur : Option ℚ) (st : AggState) (metric value : Line)
    (st1 : AggState)
    (hd : ∀ d, dur = some d → 0 < d)
    (hgood : metric = strL "out_time_ms" → ∀ n, pythonInt value = some n →
      0 ≤ n ∧ ∀ d, dur = some d → (n : ℚ) ≤ d * 1000000)
    (hinv : MetricsInv dur st)
    (h : applyMetricUpdate dur st metric value = Except.ok st1) :
    MetricsInv dur st1 := by
  obtain ⟨hp0, hp1, hs0, hsp, he, hsd⟩ := hinv
  unfold applyMetricUpdate at h
  by_cases h1 : metric = strL "total_size"
  · rw [if_pos h1] at h
    cases hv : pythonInt value with
    | none => rw [hv] at h; exact absurd h (by simp)
    | some n =>
      rw [hv] at h
      simp only [Except.ok.injEq] at h
      rw [← h]
      exact ⟨hp0, hp1, hs0, hsp, he, hsd⟩
  · rw [if_neg h1] at h
    by_cases h2 : metric = strL "out_time_ms"
    · rw [if_pos h2] at h
      cases hv : pythonInt value with
      | none => rw [hv] at h; exact absurd h (by simp)
      | some n =>
        rw [hv] at h
        obtain ⟨hn0, hnd⟩ := hgood h2 n hv
        have hsecs0 : (0 : ℚ) ≤ (n : ℚ) / 1000000 := by positivity
        cases dur with
        | none =>
          simp only [durTruthy, Bool.false_eq_true, if_false] at h
          simp only [Except.ok.injEq] at h
          rw [← h]
          refine ⟨hp0, hp1, hsecs0, hsp, he, ?_⟩
          intro d hdd; exact absurd hdd (by simp)
        | some d =>
          have hd0 : 0 < d := hd d rfl
          have hdt : durTruthy (some d) = true := by
            simp [durTruthy, hd0.ne']
          rw [hdt] at h
          simp only [if_true] at h
          have hsecsd : (n : ℚ) / 1000000 ≤ d := by
            rw [div_le_iff₀ (by norm_num : (0:ℚ) < 1000000)]
            exact hnd d rfl
          have hpct0 : 0 ≤ (n : ℚ) / 1000000 / d * 100 := by positivity
          have hpct1 : (n : ℚ) / 1000000 / d * 100 ≤ 100 := by
            have : (n : ℚ) / 1000000 / d ≤ 1 := by
              rw [div_le_one hd0]
              exact hsecsd
            nlinarith
          by_cases hc : st.current_size ≠ 0 ∧ (n : ℚ) / 1000000 / d * 100 > 0
          · rw [if_pos hc] at h
            simp only [Except.ok.injEq] at h
            rw [← h]
            exact ⟨hpct0, hpct1, hsecs0, hsp, he, fun d2 hdd => by
              cases hdd; exact hsecsd⟩
          · rw [if_neg hc] at h
            simp only [Except.ok.injEq] at h
            rw [← h]
            exact ⟨hpct0, hpct1, hsecs0, hsp, he, fun d2 hdd => by
              cases hdd; exact hsecsd⟩
    · rw [if_neg h2] at h
      by_cases h3 : metric = strL "speed"
      · rw [if_pos h3] at h
        cases hv : pythonFloat (rstripX value) with
        | none => rw [hv] at h; exact absurd h (by simp)
        | some s =>
          rw [hv] at h
          dsimp only [] at h
          by_cases hsgt : s > 0
          · rw [if_pos hsgt] at h
            cases dur with
            | none =>
              simp only [durTruthy, Bool.false_eq_true, if_false] at h
              simp only [Except.ok.injEq] at h
              rw [← h]
              refine ⟨hp0, hp1, hs0, ?_, he, hsd⟩
              intro s2 hs2
              simp only [Option.some.injEq] at hs2
              rw [← hs2]; exact hsgt
            | some d =>
              have hd0 : 0 < d := hd d rfl
              have hdt : durTruthy (some d) = true := by
                simp [durTruthy, hd0.ne']
              rw [hdt] at h
              simp only [if_true] at h
              simp only [Except.ok.injEq] at h
              rw [← h]
              refine ⟨hp0, hp1, hs0, ?_, ?_, hsd⟩
              · intro s2 hs2
                simp only [Option.some.injEq] at hs2
                rw [← hs2]; exact hsgt
              · intro e hee
                simp only [Option.some.injEq] at hee
                rw [← hee]
                have : 0 ≤ d - st.metrics.seconds_processed := by
                  have := hsd d rfl
                  linarith
                exact div_nonneg this hsgt.le
          · rw [if_neg hsgt] at h
            simp only [Except.ok.injEq] at h
            rw [← h]
            exact ⟨hp0, hp1, hs0, hsp, he, hsd⟩
      · rw [if_neg h3] at h
        simp only [Except.ok.injEq] at h
        rw [← h]
        exact ⟨hp0, hp1, hs0, hsp, he, hsd⟩


/-- Helper for C5: the `progress=end` forcing step preserves the metrics invariant. -/
theorem applyEndCheck_inv (dur : Option ℚ) (st : AggState) (line : Line)
    (hinv : MetricsInv dur st) : MetricsInv dur (applyEndCheck st line) := by
  obtain ⟨hp0, hp1, hs0, hsp, he, hsd⟩ := hinv
  unfold applyEndCheck
  by_cases hl : line = strL "progress=end"
  · rw [if_pos hl]
    refine ⟨by norm_num, by norm_num, hs0, hsp, ?_, hsd⟩
    intro e hee
    simp only [Option.some.injEq] at hee
    rw [← hee]
  · rw [if_neg hl]
    exact ⟨hp0, hp1, hs0, hsp, he, hsd⟩

/-- Helper for C5: a full `_update_metrics` call preserves the metrics invariant. -/
theorem update_metrics_inv (dur : Option ℚ) (st : AggState) (line metric value : Line)
    (st1 : AggState)
    (hd : ∀ d, dur = some d → 0 < d)
    (hgood : metric = strL "out_time_ms" → ∀ n, pythonInt value = some n →
      0 ≤ n ∧ ∀ d, dur = some d → (n : ℚ) ≤ d * 1000000)
    (hinv : MetricsInv dur st)
    (h : update_metrics dur st line metric value = Except.ok st1) :
    MetricsInv dur st1 := by
  unfold update_metrics at h
  cases ha : applyMetricUpdate dur st metric value with
  | error e => rw [ha] at h; exact absurd h (by simp)
  | ok u =>
    rw [ha] at h
    simp only [Except.ok.injEq] at h
    rw [← h]
    exact applyEndCheck_inv dur u line
      (applyMetricUpdate_inv dur st metric value u hd hgood hinv ha)

/-- Helper for C5: one poll-loop stdout line preserves the metrics invariant. -/
theorem processStdoutLine_inv (dur : Option ℚ) (st : AggState) (line : Line)
    (st1 : AggState) (b : Bool)
    (hd : ∀ d, dur = some d → 0 < d)
    (hgood : goodPayload dur line)
    (hinv : MetricsInv dur st)
    (h : processStdoutLine dur st line = Except.ok (st1, b)) :
    MetricsInv dur st1 := by
  unfold processStdoutLine at h
  by_cases hl : line = []
  · rw [if_pos hl] at h
    simp only [Except.ok.injEq, Prod.mk.injEq] at h
    rw [← h.1]
    exact hinv
  · rw [if_neg hl] at h
    cases hsp : pySplit '=' line with
    | nil => rw [hsp] at h; exact Except.noConfusion h
    | cons m rest =>
      cases rest with
      | nil => rw [hsp] at h; exact Except.noConfusion h
      | cons v rest2 =>
        cases rest2 with
        | nil =>
          rw [hsp] at h
          dsimp only [] at h
          by_cases hg : m ∈ WANTED_METRICS ∧ v ≠ [] ∧ containsSub (strL "N/A") v = false
          · rw [if_pos hg] at h
            cases hu : update_metrics dur st line m v with
            | error e => rw [hu] at h; exact Except.noConfusion h
            | ok u =>
              rw [hu] at h
              simp only [Except.map, Except.ok.injEq, Prod.mk.injEq] at h
              rw [← h.1]
              exact update_metrics_inv dur st line m v u hd
                (fun hm n hn => hgood m v n hsp hm hn) hinv hu
          · rw [if_neg hg] at h
            simp only [Except.ok.injEq, Prod.mk.injEq] at h
            rw [← h.1]
            exact hinv
        | cons w rest3 => rw [hsp] at h; exact Except.noConfusion h

/-- Helper for C5: any sequence of poll-loop stdout lines preserves the metrics invariant. -/
theorem processLines_inv (dur : Option ℚ) (lines : List Line) :
    ∀ (st st1 : AggState),
      (∀ d, dur = some d → 0 < d) →
      (∀ l ∈ lines, goodPayload dur l) →
      MetricsInv dur st →
      processLines dur st lines = Except.ok st1 →
      MetricsInv dur st1 := by
  induction lines with
  | nil =>
    intro st st1 _ _ hinv h
    simp only [processLines, Except.ok.injEq] at h
    rw [← h]
    exact hinv
  | cons l ls ih =>
    intro st st1 hd hgood hinv h
    unfold processLines at h
    cases hp : processStdoutLine dur st l with
    | error e => rw [hp] at h; exact absurd h (by simp)
    | ok p =>
      rw [hp] at h
      exact ih p.1 st1 hd (fun x hx => hgood x (List.mem_cons_of_mem l hx))
        (processStdoutLine_inv dur st l p.1 p.2 hd (hgood l (List.mem_cons_self l ls))
          hinv hp) h

/-- C5 (amended): every metrics state reachable from the initial state by wire-protocol lines whose elapsed payloads are nonnegative and within the known positive total duration satisfies: percentage in [0,100], secondsProcessed at least 0 and at most the known duration, speed unknown or strictly positive, eta unknown or nonnegative. -/
theorem metrics_invariant_spec (dur : Option ℚ) (lines : List Line) (st1 : AggState)
    (hd : ∀ d, dur = some d → 0 < d)
    (hgood : ∀ l ∈ lines, goodPayload dur l)
    (h : processLines dur initAggState lines = Except.ok st1) :
    MetricsInv dur st1 := by
  apply processLines_inv dur lines initAggState st1 hd hgood ?_ h
  refine ⟨by norm_num [initAggState], by norm_num [initAggState],
          by norm_num [initAggState], ?_, ?_, ?_⟩
  · intro s hs
    simp [initAggState] at hs
  · intro e he2
    simp [initAggState] at he2
  · intro d hdd
    simpa [initAggState] using (hd d hdd).le

/-- Counterexample for C5 as stated: the aggregator does not clamp; a well-formed wire line with payload 200000000 against a known duration of 100s drives percentage to 200, outside [0,100]. -/
theorem metrics_invariant_counterexample :
    ∃ st1 : AggState,
      processLines (some 100) initAggState [strL "out_time_ms=200000000"] =
        Except.ok st1 ∧
      st1.metrics.percentage = 200 ∧
      ¬ st1.metrics.percentage ≤ 100 := by
  have hsplit : pySplit '=' (strL "out_time_ms=200000000") =
      [strL "out_time_ms", strL "200000000"] := by decide
  have hint : pythonInt (strL "200000000") = some 200000000 := by decide
  refine ⟨{ metrics := { percentage := 200, seconds_processed := 200 },
            current_size := 0 }, ?_, rfl, by norm_num⟩
  simp +decide [processLines, processStdoutLine, hsplit, update_metrics,
    applyMetricUpdate, applyEndCheck, hint, durTruthy, initAggState, Except.map]
  norm_num

/-- Witness for C5: the amended invariant theorem applied to the single line with elapsed payload 25000000 and duration 100s. -/
theorem metrics_invariant_spec_witness :
    processLines (some 100) initAggState [strL "out_time_ms=25000000"] =
      Except.ok { metrics := { percentage := 25, seconds_processed := 25 },
                  current_size := 0 } ∧
    MetricsInv (some 100)
      { metrics := { percentage := 25, seconds_processed := 25 }, current_size := 0 } := by
  have hsplit : pySplit '=' (strL "out_time_ms=25000000") =
      [strL "out_time_ms", strL "25000000"] := by decide
  have hint : pythonInt (strL "25000000") = some 25000000 := by decide
  have heval : processLines (some 100) initAggState [strL "out_time_ms=25000000"] =
      Except.ok { metrics := { percentage := 25, seconds_processed := 25 },
                  current_size := 0 } := by
    simp +decide [processLines, processStdoutLine, hsplit, update_metrics,
      applyMetricUpdate, applyEndCheck, hint, durTruthy, initAggState, Except.map]
    norm_num
  refine ⟨heval, metrics_invariant_spec (some 100) _ _ ?_ ?_ heval⟩
  · intro d hdd
    injection hdd with h2
    rw [← h2]
    norm_num
  · intro l hl
    simp only [List.mem_singleton] at hl
    subst hl
    intro m v n hsp hm hv
    rw [hsplit] at hsp
    injection hsp with e1 e2
    injection e2 with e2 e3
    subst e1
    subst e2
    rw [hint] at hv
    injection hv with hn
    subst hn
    refine ⟨by norm_num, ?_⟩
    intro d hdd
    injection hdd with h2
    rw [← h2]
    norm_num

/-- Counterexample for C1 as stated: a non-empty progress-channel line with several separators, with none at all, or with an unparsable elapsed payload raises a `ValueError` out of the poll loop (only `queue.Empty` is caught there). -/
theorem poll_loop_crash_counterexample :
    processStdoutLine (some 100) initAggState (strL "a=b=c") =
      Except.error PyError.valueError ∧
    processStdoutLine (some 100) initAggState (strL "frame") =
      Except.error PyError.valueError ∧
    processStdoutLine (some 100) initAggState (strL "out_time_ms=12a3") =
      Except.error PyError.valueError := by
  exact ⟨rfl, rfl, rfl⟩

/-- C1 (amended): an empty progress-channel line, and a line splitting at the separator into exactly a metric and a value that fail the allow-list / nonempty / no-`N/A` guard, are skipped locally without exception and without touching the aggregator state or invoking the handler.  (Lines with no or several separators, or allow-listed metrics with unparsable payloads, raise — see the counterexample.) -/
theorem poll_loop_tolerated_lines (dur : Option ℚ) (st : AggState) (line : Line)
    (h : line = [] ∨ ∃ metric value, pySplit '=' line = [metric, value] ∧
      ¬(metric ∈ WANTED_METRICS ∧ value ≠ [] ∧
        containsSub (strL "N/A") value = false)) :
    processStdoutLine dur st line = Except.ok (st, false) := by
  rcases h with h | ⟨m, v, hsplit, hguard⟩
  · simp [processStdoutLine, h]
  · by_cases hl : line = []
    · simp [processStdoutLine, hl]
    · simp [processStdoutLine, hl, hsplit, hguard]

/-- Witness for C1: the unrecognised metric line `frame=120` is skipped. -/
theorem poll_loop_tolerated_lines_witness :
    processStdoutLine (some 100) initAggState (strL "frame=120") =
      Except.ok (initAggState, false) :=
  poll_loop_tolerated_lines (some 100) initAggState (strL "frame=120")
    (Or.inr ⟨strL "frame", strL "120", by decide, by decide⟩)

/-- Helper for C6: stderr processing never removes collected error lines. -/
theorem mem_error_messages_mono (lines : List Line) :
    ∀ (s : SupState) (x : Line), x ∈ s.error_messages →
      x ∈ (drainStderrList s lines).error_messages := by
  induction lines with
  | nil => intro s x hx; exact hx
  | cons l ls ih =>
    intro s x hx
    apply ih
    unfold processStderrLine
    by_cases hl : l = []
    · simp [hl]
      exact hx
    · by_cases hm : matchesErrorWord l = true
      · simp [hl, hm]
        exact Or.inl hx
      · simp [hl, hm]
        exact hx

/-- C6: every consumed diagnostic line containing one of the fixed failure keywords case-insensitively ends up in the accumulated error-line list, and on a nonzero return code the outcome is FAILED: the caller-supplied error handler is invoked when present, otherwise the default failure report carrying the return code, the collected error lines and the log-file pointer is produced; the outcome is never SUCCEEDED. -/
theorem failed_run_spec :
    (∀ (lines : List Line) (s : SupState) (line : Line),
        line ∈ lines → matchesErrorWord line = true →
        line ∈ (drainStderrList s lines).error_messages) ∧
    (∀ (rc : ℤ) (errors : List Line) (log_file : Line) (sh : Bool), rc ≠ 0 →
        handle_process_ended rc errors log_file true sh =
          EndOutcome.failedCustomHandler ∧
        handle_process_ended rc errors log_file false sh =
          EndOutcome.failedDefaultReport rc errors log_file ∧
        ∀ (eh b : Bool), handle_process_ended rc errors log_file eh sh ≠
          EndOutcome.succeeded b) := by
  constructor
  · intro lines
    induction lines with
    | nil => intro s line hmem _; exact absurd hmem (List.not_mem_nil line)
    | cons l ls ih =>
      intro s line hmem hkw
      rcases List.mem_cons.mp hmem with heq | hmem2
      · subst heq
        show line ∈ (drainStderrList (processStderrLine s line) ls).error_messages
        apply mem_error_messages_mono
        have hne : line ≠ [] := by
          intro hc
          rw [hc] at hkw
          exact absurd hkw (by decide)
        unfold processStderrLine
        simp [hne, hkw]
      · exact ih (processStderrLine s l) line hmem2 hkw
  · intro rc errors log_file sh hrc
    refine ⟨by simp [handle_process_ended, hrc], by simp [handle_process_ended, hrc], ?_⟩
    intro eh b
    by_cases heh : eh = true <;> simp [handle_process_ended, hrc, heh]

/-- Witness for C6: a diagnostic line containing "No such file" is collected,
and return code 1 without a handler yields the default failure report. -/
theorem failed_run_spec_witness :
    strL "abc: No such file or directory" ∈
      (drainStderrList {} [strL "abc: No such file or directory"]).error_messages ∧
    handle_process_ended 1 [strL "abc: No such file or directory"]
        (strL "ffmpeg_log.txt") false false =
      EndOutcome.failedDefaultReport 1 [strL "abc: No such file or directory"]
        (strL "ffmpeg_log.txt") := by
  constructor
  · exact failed_run_spec.1 _ {} _ (by decide) (by decide)
  · exact (failed_run_spec.2 1 _ _ false (by decide)).2.1

/-- Helper: stderr-line processing only changes the log and the error list. -/
theorem processStderrLine_fields (s : SupState) (l : Line) :
    (processStderrLine s l).agg = s.agg ∧
    (processStderrLine s l).stdoutQ = s.stdoutQ ∧
    (processStderrLine s l).stderrQ = s.stderrQ ∧
    (processStderrLine s l).handler_calls = s.handler_calls := by
  unfold processStderrLine
  by_cases hl : l = [] <;> by_cases hm : matchesErrorWord l = true <;> simp [hl, hm]

/-- Helper: draining stderr lines leaves the aggregator state, the stdout queue, the stderr-queue field and the handler-call count unchanged. -/
theorem drainStderrList_fields (lines : List Line) :
    ∀ s : SupState,
      (drainStderrList s lines).agg = s.agg ∧
      (drainStderrList s lines).stdoutQ = s.stdoutQ ∧
      (drainStderrList s lines).stderrQ = s.stderrQ ∧
      (drainStderrList s lines).handler_calls = s.handler_calls := by
  induction lines with
  | nil => intro s; exact ⟨rfl, rfl, rfl, rfl⟩
  | cons l ls ih =>
    intro s
    have h := ih (processStderrLine s l)
    have hp := processStderrLine_fields s l
    exact ⟨h.1.trans hp.1, (h.2.1.trans hp.2.1),
           (h.2.2.1.trans hp.2.2.1), (h.2.2.2.trans hp.2.2.2)⟩

/-- Counterexample for C9 as stated: a run with return code 0 reports SUCCEEDED, yet the final drain leaves a produced progress-channel line unconsumed — only the stderr queue is drained after the loop. -/
theorem final_drain_counterexample :
    handle_process_ended 0 [] (strL "ffmpeg_log.txt") false false =
      EndOutcome.succeeded false ∧
    (finalDrain { stdoutQ := [strL "out_time_ms=1"],
                  stderrQ := [strL "late stderr"] }).stdoutQ =
      [strL "out_time_ms=1"] ∧
    (finalDrain { stdoutQ := [strL "out_time_ms=1"],
                  stderrQ := [strL "late stderr"] }).stdoutQ ≠ [] := by
  refine ⟨rfl, ?_, ?_⟩
  · exact (drainStderrList_fields _ _).2.1
  · intro hc
    have h2 : (finalDrain { stdoutQ := [strL "out_time_ms=1"],
                            stderrQ := [strL "late stderr"] } : SupState).stdoutQ =
        [strL "out_time_ms=1"] := (drainStderrList_fields _ _).2.1
    rw [h2] at hc
    exact List.noConfusion hc

/-- C9 (amended): after the poll loop observes process termination, the diagnostic-channel (stderr) queue is drained one final time (it ends empty) while the progress-channel (stdout) queue is left untouched, and the outcome is SUCCEEDED exactly when the return code is 0. -/
theorem final_drain_spec (s : SupState) (rc : ℤ) (errors : List Line)
    (log_file : Line) (sh : Bool) :
    (finalDrain s).stderrQ = [] ∧
    (finalDrain s).stdoutQ = s.stdoutQ ∧
    (∀ eh : Bool,
      handle_process_ended rc errors log_file eh sh = EndOutcome.succeeded sh ↔
        rc = 0) := by
  refine ⟨?_, ?_, ?_⟩
  · exact (drainStderrList_fields s.stderrQ _).2.2.1
  · exact (drainStderrList_fields s.stderrQ _).2.1
  · intro eh
    by_cases hrc : rc = 0
    · simp [handle_process_ended, hrc]
    · by_cases heh : eh = true <;> simp [handle_process_ended, hrc, heh]

/-- Helper for C10: with an unknown duration one poll tick never touches the stdout queue, the aggregator state or the handler-call count. -/
theorem pollTick_none_preserves (hasHandler : Bool) (s : SupState) :
    ∃ s1, pollTick none hasHandler s = Except.ok s1 ∧
      s1.agg = s.agg ∧ s1.stdoutQ = s.stdoutQ ∧
      s1.handler_calls = s.handler_calls := by
  cases hq : s.stderrQ with
  | nil =>
    refine ⟨s, ?_, rfl, rfl, rfl⟩
    simp [pollTick, hq]
  | cons l rest =>
    have hp := processStderrLine_fields s l
    refine ⟨{ processStderrLine s l with stderrQ := rest }, ?_, hp.1, hp.2.1, hp.2.2.2⟩
    simp [pollTick, hq]

/-- C10: when the input duration is unknown, any number of poll-loop ticks followed by the final drain never takes a line from the progress-channel queue, never updates the metrics, and never invokes a registered progress callback. -/
theorem no_duration_no_progress (hasHandler : Bool) (n : ℕ) (s : SupState) :
    ∃ s1, pollLoop none hasHandler n s = Except.ok s1 ∧
      s1.agg = s.agg ∧ s1.stdoutQ = s.stdoutQ ∧
      s1.handler_calls = s.handler_calls ∧
      (finalDrain s1).agg = s.agg ∧ (finalDrain s1).stdoutQ = s.stdoutQ ∧
      (finalDrain s1).handler_calls = s.handler_calls := by
  induction n generalizing s with
  | zero =>
    refine ⟨s, rfl, rfl, rfl, rfl, ?_, ?_, ?_⟩
    · exact (drainStderrList_fields s.stderrQ _).1
    · exact (drainStderrList_fields s.stderrQ _).2.1
    · exact (drainStderrList_fields s.stderrQ _).2.2.2
  | succ k ih =>
    obtain ⟨s1, h1, ha, hq, hc⟩ := pollTick_none_preserves hasHandler s
    obtain ⟨s2, h2, ha2, hq2, hc2, hd1, hd2, hd3⟩ := ih s1
    refine ⟨s2, ?_, ha2.trans ha, hq2.trans hq, hc2.trans hc,
            hd1.trans ha, hd2.trans hq, hd3.trans hc⟩
    unfold pollLoop
    rw [h1]
    exact h2

/-- C3: the termination timeout is the fixed 2 seconds (within the claimed 1-2s); every enumerated descendant alive at signal time receives the graceful terminate, every descendant still alive after the bounded wait and running receives the forced kill; every enumeration failure class is absorbed with no signals and no exception; and the fatal failed-to-terminate outcome arises exactly when the process was live on entry and still live after the full escalation. -/
theorem termination_escalation_spec :
    (1 ≤ TERMINATION_TIMEOUT ∧ TERMINATION_TIMEOUT ≤ 2) ∧
    (∀ (children : List ChildProc) (c : ChildProc),
        c ∈ children → c.runningAtTerm = true →
        c ∈ (terminate_children_processes (EnumResult.ok true children)).termed) ∧
    (∀ (children : List ChildProc) (c : ChildProc),
        c ∈ children → c.aliveAfterWait = true → c.runningAtKill = true →
        c ∈ (terminate_children_processes (EnumResult.ok true children)).killed) ∧
    (terminate_children_processes EnumResult.noSuchProcess = {} ∧
     terminate_children_processes EnumResult.accessDenied = {} ∧
     terminate_children_processes EnumResult.otherError = {}) ∧
    (∀ (pollBefore : Option ℤ) (enum : EnumResult) (pollAfter : Option ℤ),
        (terminate_ffmpeg_process pollBefore enum pollAfter).1 =
            TermOutcome.fatalFailedToTerminate ↔
          pollBefore = none ∧ pollAfter = none) := by
  refine ⟨⟨by norm_num [TERMINATION_TIMEOUT], by norm_num [TERMINATION_TIMEOUT]⟩,
          ?_, ?_, ⟨rfl, rfl, rfl⟩, ?_⟩
  · intro children c hc hrt
    have hne : ¬(children = []) := by
      intro hc2
      rw [hc2] at hc
      exact absurd hc (List.not_mem_nil c)
    unfold terminate_children_processes
    simp only [hne, if_false]
    simp only [Bool.true_eq_false, if_false, ite_false]
    exact List.mem_filter.mpr ⟨hc, hrt⟩
  · intro children c hc haw hrk
    have hne : ¬(children = []) := by
      intro hc2
      rw [hc2] at hc
      exact absurd hc (List.not_mem_nil c)
    unfold terminate_children_processes
    simp only [hne, if_false]
    simp only [Bool.true_eq_false, if_false, ite_false]
    exact List.mem_filter.mpr ⟨List.mem_filter.mpr ⟨hc, haw⟩, hrk⟩
  · intro pb enum pa
    unfold terminate_ffmpeg_process
    by_cases hpb : pb = none
    · by_cases hpa : pa = none <;> simp [hpb, hpa]
    · simp [hpb]

/-- Witness for C3: a single live, term-surviving child is terminated then killed, and a still-alive process at the end is fatal. -/
theorem termination_escalation_spec_witness :
    (⟨true, false, true, true, false⟩ : ChildProc) ∈
      (terminate_children_processes (EnumResult.ok true
        [⟨true, false, true, true, false⟩])).termed ∧
    (⟨true, false, true, true, false⟩ : ChildProc) ∈
      (terminate_children_processes (EnumResult.ok true
        [⟨true, false, true, true, false⟩])).killed ∧
    (terminate_ffmpeg_process none (EnumResult.ok true
        [⟨true, false, true, true, false⟩]) none).1 =
      TermOutcome.fatalFailedToTerminate := by
  refine ⟨?_, ?_, ?_⟩
  · exact termination_escalation_spec.2.1 _ _ (by decide) rfl
  · exact termination_escalation_spec.2.2.1 _ _ (by decide) rfl rfl
  · exact (termination_escalation_spec.2.2.2.2 none _ none).mpr ⟨rfl, rfl⟩

end BFP
